import Mathlib

/-!
# Verification of the Atlas geospatial extraction service

A shallow embedding of the parts of the service that the checked claims
are about, translated from the Python source:

* `src/core/storage/job_storage.py` — the in-memory TTL job store;
* `src/api/routes/export.py` — the legacy download route;
* `src/utils/geometry.py` — AOI polygon validation and bounding boxes;
* `src/core/services/processing_service.py` and
  `src/api/routes/extract_v2.py` — concurrent per-source aggregation and
  the overall-status computation;
* `src/exporters/csv.py` — the CSV exporter;
* `src/utils/building_processor.py` — the building property whitelist;
* `src/core/data_sources/openstreetmap.py` — Overpass element conversion;
* `src/core/processors/buildings_cleaner.py` — the "Google" buildings
  cleaning pipeline.

Machine floats are modelled as `ℚ`; wall-clock instants are passed in
explicitly as rational seconds.  Calls into the geometry libraries
(shapely / pyproj / geopandas) are modelled as oracle inputs: the
validity flag, the projected area, and the per-feature shape metrics are
parameters, while all control flow around them is translated from the
source.
-/

namespace Atlas

/-! ## String primitives

Python string methods (`lower`, `strip`, `replace` of single characters,
`startswith`) modelled over the character list, so that every definition
evaluates inside the kernel.  `lower` is modelled on ASCII letters — the
keys it is applied to are ASCII identifiers. -/

/-- ASCII lower-casing of one character. -/
def charLower (c : Char) : Char :=
  if 65 ≤ c.toNat ∧ c.toNat ≤ 90 then Char.ofNat (c.toNat + 32) else c

/-- Python `s.lower()` on ASCII text. -/
def strLower (s : String) : String :=
  ⟨s.data.map charLower⟩

/-- The whitespace characters `str.strip()` removes (ASCII subset). -/
def isSpaceChar (c : Char) : Bool :=
  c = ' ' || c = '\t' || c = '\n' || c = '\r'

/-- Python `s.strip()`. -/
def strTrim (s : String) : String :=
  ⟨((s.data.dropWhile isSpaceChar).reverse.dropWhile isSpaceChar).reverse⟩

/-- Python `s.startswith(pat)`. -/
def strStarts (pat : List Char) (s : List Char) : Bool :=
  match pat, s with
  | [], _ => true
  | _ :: _, [] => false
  | a :: as, b :: bs => (a = b) && strStarts as bs

/-- Python `s.replace(pat, rep)` for one-character patterns. -/
def replChar (pat rep : Char) (s : String) : String :=
  ⟨s.data.map (fun c => if c = pat then rep else c)⟩

/-- Code-point order on strings, for sorting column names. -/
def charsLe : List Char → List Char → Bool
  | [], _ => true
  | _ :: _, [] => false
  | a :: as, b :: bs =>
    if a.toNat < b.toNat then true
    else if b.toNat < a.toNat then false
    else charsLe as bs

/-- Insert into a sorted list of strings. -/
def insertSorted (x : String) : List String → List String
  | [] => [x]
  | y :: t => if charsLe x.data y.data then x :: y :: t else y :: insertSorted x t

/-- Python `sorted` on strings (insertion sort). -/
def sortStrings : List String → List String
  | [] => []
  | x :: t => insertSorted x (sortStrings t)

/-! ## Generic dict helpers

Python `dict` assignment and lookup over string keys, modelled as an
association list.  Assignment to an existing key replaces the value in
place (keeping its position); assignment to a fresh key appends. -/

/-- `d[k] = v` on a Python dict modelled as an association list. -/
def dictInsert {β : Type} (k : String) (v : β) : List (String × β) → List (String × β)
  | [] => [(k, v)]
  | (k', v') :: t => if k' = k then (k, v) :: t else (k', v') :: dictInsert k v t

/-- `d.get(k)` on a Python dict modelled as an association list. -/
def dictGet {β : Type} (k : String) (l : List (String × β)) : Option β :=
  (l.find? (fun p => p.1 == k)).map (·.2)

/-! ## Job storage (`src/core/storage/job_storage.py`)

`InMemoryJobStorage` keeps `{job_id: {'data': ..., 'expires_at': ...,
'created_at': ...}}`.  The stored payload (`result.dict()`) is abstract
(`α`).  `datetime.now()` is passed in as the `now : ℚ` argument of each
operation. -/

/-- One entry of the in-memory job store (`store_job_result`, lines 36-40). -/
structure JobEntry (α : Type) where
  data : α
  expiresAt : ℚ
  createdAt : ℚ
deriving DecidableEq

/-- The in-memory job store: the `_storage` dict plus `_last_cleanup`. -/
structure JobStore (α : Type) where
  storage : List (String × JobEntry α)
  lastCleanup : ℚ
deriving DecidableEq

/-- `InMemoryJobStorage.__init__` (lines 25-29): the map starts empty and
`_last_cleanup` is the construction instant. -/
def JobStore.init {α : Type} (now : ℚ) : JobStore α :=
  ⟨[], now⟩

/-- `_cleanup_expired` (lines 91-114): a sweep removing every entry with
`now > expires_at`, gated to run at most once per `_cleanup_interval`
(300 s) — `(now - _last_cleanup).seconds < 300` is modelled as the plain
difference of the rational instants. -/
def JobStore.cleanupExpired {α : Type} (s : JobStore α) (now : ℚ) : JobStore α :=
  if now - s.lastCleanup < 300 then s
  else
    { storage := s.storage.filter (fun p => !(decide (p.2.expiresAt < now))),
      lastCleanup := now }

/-- `store_job_result` (lines 31-50): insert the entry with
`expires_at = now + ttl_seconds`, then run the piggy-backed sweep;
returns `True` on success. -/
def JobStore.storeJobResult {α : Type} (s : JobStore α) (jobId : String) (result : α)
    (ttlSeconds : ℚ) (now : ℚ) : Bool × JobStore α :=
  let s1 : JobStore α :=
    { storage := dictInsert jobId ⟨result, now + ttlSeconds, now⟩ s.storage,
      lastCleanup := s.lastCleanup }
  (true, s1.cleanupExpired now)

/-- `get_job_result` (lines 52-73): absent key → `None`; expired entry
(`now > expires_at`) → delete it and return `None`; otherwise return the
stored payload. -/
def JobStore.getJobResult {α : Type} (s : JobStore α) (jobId : String) (now : ℚ) :
    Option α × JobStore α :=
  match dictGet jobId s.storage with
  | none => (none, s)
  | some e =>
    if e.expiresAt < now then
      (none, { s with storage := s.storage.filter (fun p => !(p.1 == jobId)) })
    else
      (some e.data, s)

/-- `delete_job_result` (lines 75-89): remove the key if present; a
missing key still counts as a successful delete. -/
def JobStore.deleteJobResult {α : Type} (s : JobStore α) (jobId : String) :
    Bool × JobStore α :=
  (true, { s with storage := s.storage.filter (fun p => !(p.1 == jobId)) })

/-! ## Legacy download route (`src/api/routes/export.py`)

`download_export` (lines 31-131) constructs `InMemoryJobStorage()` anew
on every call (line 77) and looks the job up in that fresh instance;
a missing result answers HTTP 404 (lines 80-84). -/

/-- Outcome of the legacy `GET /export/{job_id}/{format}` route,
restricted to the job-lookup portion (a supported format is assumed). -/
inductive DownloadOutcome (α : Type)
  | notFound404
  | fileResponse (payload : α)
deriving DecidableEq

/-- `download_export` lines 76-84: build a brand-new store, look the job
up in it, answer 404 when absent. -/
def downloadExport (α : Type) (jobId : String) (now : ℚ) : DownloadOutcome α :=
  let jobStorage : JobStore α := JobStore.init now
  match (jobStorage.getJobResult jobId now).1 with
  | none => DownloadOutcome.notFound404
  | some d => DownloadOutcome.fileResponse d

/-! ## AOI polygon validation (`src/utils/geometry.py`)

`validate_aoi_polygon` (lines 112-172).  The shapely `is_valid` flag and
the projected `area_km2` returned by `calculate_polygon_area_km2` are
oracle inputs; every check and its order is translated from the source.
Error strings are represented by tagged kinds. -/

/-- The validation error strings of `validate_aoi_polygon`, as kinds. -/
inductive AoiError
  | invalidGeometry
  | notClosed
  | tooFewCoordinates
  | nonPositiveArea
  | areaExceedsMax
  | invalidLongitude (lon : ℚ)
  | invalidLatitude (lat : ℚ)
deriving DecidableEq

/-- The coordinate-bounds loop of `validate_aoi_polygon` (lines 157-163):
every out-of-range longitude and latitude appends an error. -/
def collectBoundErrors (coords : List (ℚ × ℚ)) : List AoiError :=
  coords.foldl
    (fun acc c =>
      let acc := if decide (-180 ≤ c.1 ∧ c.1 ≤ 180) then acc
                 else acc ++ [AoiError.invalidLongitude c.1]
      if decide (-90 ≤ c.2 ∧ c.2 ≤ 90) then acc
      else acc ++ [AoiError.invalidLatitude c.2])
    []

/-- `validate_aoi_polygon` (lines 112-172).  `isValid` is shapely's
`polygon.is_valid`; `areaKm2` is the oracle value of
`calculate_polygon_area_km2`.  Each of the first five checks returns
immediately; only the bounds loop collects. -/
def validateAoiPolygon (isValid : Bool) (areaKm2 : ℚ) (coords : List (ℚ × ℚ))
    (maxAreaKm2 : ℚ) : Bool × ℚ × List AoiError :=
  if !isValid then (false, 0, [AoiError.invalidGeometry])
  else if coords.head? ≠ coords.getLast? then (false, 0, [AoiError.notClosed])
  else if coords.length < 4 then (false, 0, [AoiError.tooFewCoordinates])
  else if areaKm2 ≤ 0 then (false, areaKm2, [AoiError.nonPositiveArea])
  else if maxAreaKm2 < areaKm2 then (false, areaKm2, [AoiError.areaExceedsMax])
  else
    let errs := collectBoundErrors coords
    if errs ≠ [] then (false, areaKm2, errs)
    else (true, areaKm2, [])

/-! ## Bounding boxes (`src/utils/geometry.py` lines 202-225) and the
Overpass connector's use of them
(`src/core/data_sources/openstreetmap.py` lines 124-139). -/

/-- A (west, south, east, north) envelope. -/
structure BBox where
  west : ℚ
  south : ℚ
  east : ℚ
  north : ℚ
deriving DecidableEq

/-- Accumulator for `polygon.bounds`. -/
def boundsAux (b : BBox) : List (ℚ × ℚ) → BBox
  | [] => b
  | p :: t =>
    boundsAux ⟨min b.west p.1, min b.south p.2, max b.east p.1, max b.north p.2⟩ t

/-- shapely `polygon.bounds`: the envelope of the exterior coordinates. -/
def polygonBounds : List (ℚ × ℚ) → BBox
  | [] => ⟨0, 0, 0, 0⟩
  | p :: t => boundsAux ⟨p.1, p.2, p.1, p.2⟩ t

/-- `create_bounding_box` (lines 202-225): expand the envelope by
`buffer_km / 111` degrees on all four sides when the buffer is positive. -/
def createBoundingBox (coords : List (ℚ × ℚ)) (bufferKm : ℚ) : BBox :=
  let b := polygonBounds coords
  if 0 < bufferKm then
    let bufferDeg := bufferKm / 111
    ⟨b.west - bufferDeg, b.south - bufferDeg, b.east + bufferDeg, b.north + bufferDeg⟩
  else b

/-- The default `buffer_km = 0.1` of `create_bounding_box`. -/
def defaultBufferKm : ℚ := mkRat 1 10

/-- `_extract_buildings_overpass` line 127: the connector calls
`create_bounding_box(aoi_polygon)` with the default buffer. -/
def extractBuildingsBbox (coords : List (ℚ × ℚ)) : BBox :=
  createBoundingBox coords defaultBufferKm

/-! ## Data-source aggregation
(`src/core/services/processing_service.py` lines 94-128 and
`src/api/routes/extract_v2.py` lines 170-191) -/

/-- `DataSourceType` (`src/api/schemas_v2.py`): the seven sources. -/
inductive SourceType
  | microsoftBuildings
  | googleBuildings
  | osmBuildings
  | osmRoads
  | osmRailways
  | osmLandmarks
  | osmNatural
deriving DecidableEq

/-- The `.value` string of each `DataSourceType` member. -/
def SourceType.value : SourceType → String
  | .microsoftBuildings => "microsoft_buildings"
  | .googleBuildings => "google_buildings"
  | .osmBuildings => "osm_buildings"
  | .osmRoads => "osm_roads"
  | .osmRailways => "osm_railways"
  | .osmLandmarks => "osm_landmarks"
  | .osmNatural => "osm_natural"

/-- `ProcessingStatus`; the `PARTIAL` member is named `partialResult`
here because `partial` is a Lean keyword. -/
inductive ProcessingStatus
  | pending
  | processing
  | completed
  | failed
  | partialResult
deriving DecidableEq

/-- The `.value` string of each `ProcessingStatus` member. -/
def ProcessingStatus.value : ProcessingStatus → String
  | .pending => "pending"
  | .processing => "processing"
  | .completed => "completed"
  | .failed => "failed"
  | .partialResult => "partial"

/-- `DataSourceResult` restricted to the fields the aggregation logic
reads: source, status, `stats.count` and the error message. -/
structure DataSourceResult where
  source : SourceType
  status : ProcessingStatus
  count : ℕ
  error : Option String
deriving DecidableEq

/-- The outcome `asyncio.gather(..., return_exceptions=True)` hands back
for one per-source task: either the task's `DataSourceResult` or the
exception it raised (carried as its message string). -/
inductive TaskOutcome
  | ok (r : DataSourceResult)
  | exn (msg : String)
deriving DecidableEq

/-- `_create_error_result` (lines 173-189): a FAILED result with an
empty collection (count 0) and the error text. -/
def createErrorResult (st : SourceType) (msg : String) : DataSourceResult :=
  ⟨st, ProcessingStatus.failed, 0, some msg⟩

/-- `_process_sources_concurrently` (lines 94-128): one task per enabled
source; an exception becomes a FAILED entry for that source, a success
keeps the task's own result; `results` is keyed by source in task
order.  The input list carries one `(source, outcome)` pair per enabled
source (the sources are the keys of a dict, hence distinct). -/
def processSourcesConcurrently (tasks : List (SourceType × TaskOutcome)) :
    List (SourceType × DataSourceResult) :=
  tasks.map (fun t =>
    match t.2 with
    | TaskOutcome.ok r => (t.1, r)
    | TaskOutcome.exn m => (t.1, createErrorResult t.1 m))

/-- `extract_v2.py` line 173: the number of results whose status is
COMPLETED. -/
def successfulSources (results : List (SourceType × DataSourceResult)) : ℕ :=
  (results.filter (fun p => p.2.status == ProcessingStatus.completed)).length

/-- `extract_v2.py` lines 175-181: overall status from the per-source
statuses. -/
def overallStatus (results : List (SourceType × DataSourceResult)) : ProcessingStatus :=
  if successfulSources results = 0 then ProcessingStatus.failed
  else if successfulSources results = results.length then ProcessingStatus.completed
  else ProcessingStatus.partialResult

/-! ## Property values

Feature properties are an open bag of JSON values.  `obj` stands for a
JSON object carrying a `coordinates` array (the shape the Google
`longitude_latitude` point arrives in). -/

/-- A property value: string, number, boolean, `None`, or an embedded
point object. -/
inductive PropValue
  | str (s : String)
  | num (q : ℚ)
  | boolean (b : Bool)
  | nullV
  | obj (coords : List ℚ)
deriving DecidableEq

/-- Python `str(value)`; the numeric and object renderings are
abstracted. -/
def pyStr : PropValue → String
  | .str s => s
  | .num q => toString q
  | .boolean b => if b then "True" else "False"
  | .nullV => "None"
  | .obj _ => "object"

/-! ## CSV exporter (`src/exporters/csv.py` lines 26-99) -/

/-- One input feature for the CSV exporter: the `feature.id`,
the geometry type tag, the WKT rendering (an oracle for shapely's
`geom.wkt`), and the property bag. -/
structure CsvFeature where
  fid : Option String
  geometryType : Option String
  geometryWkt : Option String
  props : List (String × PropValue)
deriving DecidableEq

/-- One per-source result as the CSV exporter reads it
(`result.geojson.features` and `result.status`). -/
structure CsvSourceResult where
  source : SourceType
  status : ProcessingStatus
  features : List CsvFeature
deriving DecidableEq

/-- Line 65: `str(key).replace(' ', '_').replace('-', '_')`. -/
def cleanKey (k : String) : String :=
  replChar '-' '_' (replChar ' ' '_' k)

/-- Rendering of an optional cell value; `None` prints as the empty
string in the csv writer. -/
def renderOpt (v : Option String) : String :=
  v.getD ""

/-- One pass of the property loop (lines 59-66): skip a `description`
key (case-insensitive), otherwise store the value under the cleaned
key. -/
def csvPropStep (acc : List (String × String)) (kv : String × PropValue) :
    List (String × String) :=
  if strLower kv.1 == "description" then acc
  else dictInsert (cleanKey kv.1) (pyStr kv.2) acc

/-- Lines 51-68: the `feature_data` dict for one feature — the five
atlas/geometry columns, then every property except `description`
(case-insensitive), under its cleaned key. -/
def featureData (srcValue statusValue : String) (f : CsvFeature) :
    List (String × String) :=
  let base := [("atlas_source", srcValue),
               ("atlas_source_status", statusValue),
               ("feature_id", renderOpt f.fid),
               ("geometry_type", renderOpt f.geometryType),
               ("geometry_wkt", renderOpt f.geometryWkt)]
  f.props.foldl csvPropStep base

/-- One pass of the `all_features` loop (lines 46-68): a result with no
features is skipped, otherwise its rows are appended. -/
def csvRowStep (acc : List (List (String × String))) (r : CsvSourceResult) :
    List (List (String × String)) :=
  if r.features.isEmpty then acc
  else acc ++ r.features.map (featureData r.source.value r.status.value)

/-- Lines 44-68: `all_features`. -/
def collectCsvRows (results : List CsvSourceResult) : List (List (String × String)) :=
  results.foldl csvRowStep []

/-- Adding one key to the column set (line 81). -/
def keyStep (a : List String) (kv : String × String) : List String :=
  if kv.1 ∈ a then a else a ++ [kv.1]

/-- Adding one row's keys to the column set (line 81). -/
def rowKeysStep (acc : List String) (row : List (String × String)) : List String :=
  row.foldl keyStep acc

/-- Lines 79-81: `all_columns`, the set of keys over all rows.  A Python
set iterates in an arbitrary order; first-occurrence order is fixed
here, and only membership is relied on. -/
def unionKeys (rows : List (List (String × String))) : List String :=
  rows.foldl rowKeysStep []

/-- Lines 84-86: atlas columns first, the rest sorted. -/
def csvHeader (cols : List String) : List String :=
  (cols.filter (fun c => strStarts "atlas_".data c.data)) ++
    sortStrings (cols.filter (fun c => !(strStarts "atlas_".data c.data)))

/-- A CSV document: the header row and the data rows. -/
structure CsvDoc where
  header : List String
  rows : List (List String)
deriving DecidableEq

/-- `CSVExporter.export` (lines 26-99): the empty case yields the fixed
header plus the single "No features found" row (lines 70-76); otherwise
one row per feature with `feature.get(col, '')` per column. -/
def csvExport (results : List CsvSourceResult) : CsvDoc :=
  let allFeatures := collectCsvRows results
  if allFeatures.isEmpty then
    ⟨["atlas_source", "atlas_source_status", "message"],
     [["N/A", "N/A", "No features found"]]⟩
  else
    let columnOrder := csvHeader (unionKeys allFeatures)
    ⟨columnOrder,
     allFeatures.map (fun row => columnOrder.map (fun c => (dictGet c row).getD ""))⟩

/-! ## Building property processor (`src/utils/building_processor.py`) -/

/-- Round-half-to-even on a rational, Python's `round` tie rule. -/
def roundHalfEven (q : ℚ) : ℤ :=
  let f := ⌊q⌋
  let frac := q - f
  if frac < 1 / 2 then f
  else if 1 / 2 < frac then f + 1
  else if f % 2 = 0 then f else f + 1

/-- Python `round(x, n)` modelled exactly on the rational value. -/
def pyRound (q : ℚ) (ndigits : ℕ) : ℚ :=
  (roundHalfEven (q * 10 ^ ndigits) : ℚ) / 10 ^ ndigits

/-- `isinstance(value, (int, float))` followed by `float(value)`:
numbers pass through; Python `bool` is an `int` (True → 1.0). -/
def asNumber : PropValue → Option ℚ
  | .num q => some q
  | .boolean b => some (if b then 1 else 0)
  | _ => none

/-- The `lat,lon` string built at line 183; the numeric rendering is
abstracted. -/
def fmtLatLon (lat lon : ℚ) : String :=
  toString lat ++ "," ++ toString lon

/-- `_clean_property_value` (lines 118-171).  `confidence` must be
numeric and already inside [0,1] (it is rejected, not clamped,
otherwise); `area_in_meters`, `height`, `levels` must be positive;
the string whitelist fields are trimmed. -/
def cleanPropertyValue (propName : String) (v : PropValue) : Option PropValue :=
  if propName == "confidence" then
    match asNumber v with
    | some c => if 0 ≤ c ∧ c ≤ 1 then some (PropValue.num (pyRound c 4)) else none
    | none => none
  else if propName == "area_in_meters" then
    match asNumber v with
    | some a => if 0 < a then some (PropValue.num (pyRound a 2)) else none
    | none => none
  else if propName == "height" || propName == "levels" then
    match asNumber v with
    | some x => if 0 < x then some (PropValue.num x) else none
    | none => none
  else if propName == "full_plus_code" || propName == "longitude_latitude" ||
      propName == "building_type" then
    match v with
    | PropValue.str s =>
      let c := strTrim s
      if c.data.isEmpty then none else some (PropValue.str c)
    | PropValue.nullV => none
    | PropValue.num q => some (PropValue.str (strTrim (pyStr (PropValue.num q))))
    | PropValue.boolean b => some (PropValue.str (strTrim (pyStr (PropValue.boolean b))))
    | PropValue.obj cs => some (PropValue.str (strTrim (pyStr (PropValue.obj cs))))
  else
    if v = PropValue.nullV then none else some v

/-- The `essential_building_properties` whitelist (lines 29-37); a
Python set — iteration order is arbitrary but each pass writes a
distinct key, so a fixed order is used. -/
def essentialBuildingProperties : List String :=
  ["confidence", "full_plus_code", "longitude_latitude", "area_in_meters",
   "height", "levels", "building_type"]

/-- One pass of the whitelist loop (lines 99-106): copy the property if
present, non-`None`, and valid after cleaning. -/
def cleanPropStep (props : List (String × PropValue))
    (acc : List (String × PropValue)) (name : String) : List (String × PropValue) :=
  match dictGet name props with
  | none => acc
  | some PropValue.nullV => acc
  | some v =>
    match cleanPropertyValue name v with
    | some cv => dictInsert name cv acc
    | none => acc

/-- `_process_google_buildings_properties` (lines 173-187): flatten an
embedded point into a `lat,lon` string, or copy a string through. -/
def processGoogleBuildingsProperties (original clean : List (String × PropValue)) :
    List (String × PropValue) :=
  match dictGet "longitude_latitude" original with
  | none => clean
  | some (PropValue.obj coords) =>
    if 2 ≤ coords.length then
      dictInsert "longitude_latitude"
        (PropValue.str (fmtLatLon (coords.getD 1 0) (coords.getD 0 0))) clean
    else clean
  | some (PropValue.str s) => dictInsert "longitude_latitude" (PropValue.str s) clean
  | some _ => clean

/-- `_process_osm_buildings_properties` (lines 197-204): a `building`
tag other than yes/true/1 becomes `building_type`. -/
def processOsmBuildingsProperties (original clean : List (String × PropValue)) :
    List (String × PropValue) :=
  match dictGet "building" original with
  | none => clean
  | some v =>
    if v = PropValue.str "yes" ∨ v = PropValue.str "true" ∨ v = PropValue.str "1" then clean
    else dictInsert "building_type" (PropValue.str (pyStr v)) clean

/-- `_create_clean_building_properties` (lines 81-116): `Name` is always
the empty string, the whitelist is copied, then the per-source special
cases run. -/
def createCleanBuildingProperties (props : List (String × PropValue))
    (src : SourceType) : List (String × PropValue) :=
  let clean := essentialBuildingProperties.foldl (cleanPropStep props)
    [("Name", PropValue.str "")]
  if src = SourceType.googleBuildings then processGoogleBuildingsProperties props clean
  else if src = SourceType.microsoftBuildings then clean
  else if src = SourceType.osmBuildings then processOsmBuildingsProperties props clean
  else clean

/-- `is_building_source` (lines 39-41). -/
def isBuildingSource : SourceType → Bool
  | SourceType.googleBuildings => true
  | SourceType.microsoftBuildings => true
  | SourceType.osmBuildings => true
  | _ => false

/-- `process_building_feature` (lines 43-79) at the level of the
property bag: non-building sources pass through, building sources get
the clean bag. -/
def processBuildingFeature (src : SourceType) (props : List (String × PropValue)) :
    List (String × PropValue) :=
  if isBuildingSource src then createCleanBuildingProperties props src else props

/-! ## Overpass element conversion
(`src/core/data_sources/openstreetmap.py` lines 357-463) -/

/-- The GeoJSON geometry shapes `_convert_osm_element_to_feature`
produces. -/
inductive GeoGeometry
  | point (lon lat : ℚ)
  | lineString (coords : List (ℚ × ℚ))
  | polygon (ring : List (ℚ × ℚ))
deriving DecidableEq

/-- A converted OSM feature: the `"type/id"` feature id, the geometry,
and the property dict. -/
structure OsmFeature where
  fid : String
  geometry : GeoGeometry
  properties : List (String × String)
deriving DecidableEq

/-- The property seed `{"osm_type": ..., "osm_id": ..., **tags}`
(lines 375-379 etc.); `osm_id` is an integer in the source, stringified
here for a homogeneous tag dict. -/
def osmBaseProps (osmType : String) (osmId : ℤ) (tags : List (String × String)) :
    List (String × String) :=
  tags.foldl (fun acc kv => dictInsert kv.1 kv.2 acc)
    [("osm_type", osmType), ("osm_id", toString osmId)]

/-- A raw Overpass element: a node with optional lat/lon, or a way or
relation with tags and an optional embedded geometry array
(the `out geom;` coordinate list). -/
inductive OsmElement
  | node (oid : ℤ) (tags : List (String × String)) (lonlat : Option (ℚ × ℚ))
  | way (oid : ℤ) (tags : List (String × String)) (geometry : Option (List (ℚ × ℚ)))
  | relation (oid : ℤ) (tags : List (String × String)) (geometry : Option (List (ℚ × ℚ)))
deriving DecidableEq

/-- The feature value the relation branch of
`_convert_osm_element_to_feature` constructs (lines 432-457): the
closed-ring rule of the way branch (closed ring of ≥4 points → Polygon,
else ≥2 points → LineString, else skip).  The source builds this value
into the local `feature` variable but never returns it — control falls
through to the `return None` at line 459. -/
def relationBranchFeature (oid : ℤ) (tags : List (String × String))
    (geometry : Option (List (ℚ × ℚ))) : Option OsmFeature :=
  match geometry with
  | none => none
  | some coords =>
    if 4 ≤ coords.length ∧ coords.head? = coords.getLast? then
      some ⟨"relation/" ++ toString oid, GeoGeometry.polygon coords,
            osmBaseProps "relation" oid tags⟩
    else if 2 ≤ coords.length then
      some ⟨"relation/" ++ toString oid, GeoGeometry.lineString coords,
            osmBaseProps "relation" oid tags⟩
    else none

/-- `_convert_osm_element_to_feature` (lines 357-463).  `applyNaming`
stands for `_apply_meaningful_naming`, run only for the landmarks
source (`isLandmarks`).  Node → Point; way with a geometry array →
Polygon when the ring is closed with ≥4 points, else LineString, skip
below 2 points; relation → the branch assigns its constructed feature
to a local but reaches the trailing `return None` (line 459), so every
relation yields no feature. -/
def convertOsmElementToFeature (applyNaming : OsmFeature → OsmFeature)
    (isLandmarks : Bool) : OsmElement → Option OsmFeature
  | OsmElement.node oid tags lonlat =>
    match lonlat with
    | some ll =>
      let f : OsmFeature :=
        ⟨"node/" ++ toString oid, GeoGeometry.point ll.1 ll.2, osmBaseProps "node" oid tags⟩
      some (if isLandmarks then applyNaming f else f)
    | none => none
  | OsmElement.way oid tags geometry =>
    match geometry with
    | none => none
    | some coords =>
      if coords.length < 2 then none
      else
        let geom :=
          if 4 ≤ coords.length ∧ coords.head? = coords.getLast? then
            GeoGeometry.polygon coords
          else GeoGeometry.lineString coords
        let f : OsmFeature := ⟨"way/" ++ toString oid, geom, osmBaseProps "way" oid tags⟩
        some (if isLandmarks then applyNaming f else f)
  | OsmElement.relation _ _ _ => none

/-! ## "Google" buildings cleaning
(`src/core/processors/buildings_cleaner.py` lines 90-209, 366-456)

One dataframe row per feature.  The geometric quantities shapely
computes in the projected CRS — the post-repair polygon area, the
Polsby–Popper compactness, the rotated-rectangle elongation and the
erosion-based minimum width — enter as oracle fields of the row, and
`_is_significant_overlap` enters as the oracle relation `ov` on row
labels.  `rid` is the pandas index label the row keeps through the
filters. -/

/-- One row of the cleaner's dataframe, after the
confidence/area-extraction step of lines 99-103. -/
structure GRow where
  rid : ℕ
  confidence : ℚ
  areaInMeters : Option ℚ
  geomArea : ℚ
  compactness : ℚ
  elongation : ℚ
  minWidth : ℚ
deriving DecidableEq

instance : Inhabited GRow := ⟨⟨0, 0, none, 0, 0, 0, 0⟩⟩

/-- `BuildingsCleanerConfig` (lines 34-50), restricted to the fields the
Google path reads; `edge_buffer_m` and `overlap_threshold` act inside
the `ov` oracle, `make_valid` and `simplify_tolerance_m` act on the
geometry only. -/
structure CleanerConfig where
  minAreaM2 : ℚ
  overlapThreshold : ℚ
  edgeBufferM : ℚ
  strategy : String
  googleMinConfidence : ℚ
  minWidthM : ℚ
  minCompactness : ℚ
  maxElongation : ℚ
deriving DecidableEq

/-- The dataclass defaults (lines 36-48); `extract_v2.py` lines 119-130
fill the config with the same values when the request supplies none. -/
def defaultCleanerConfig : CleanerConfig :=
  ⟨8, mkRat 3 10, mkRat 1 2, "highest_confidence", mkRat 65 100, 2, mkRat 8 100, 8⟩

/-- Lines 124-126: the effective area — the `area_in_meters` property if
present and positive, else the geometric area (a missing property is
`fillna(0.0)`, which is not `> 0`). -/
def effectiveArea (r : GRow) : ℚ :=
  match r.areaInMeters with
  | some a => if 0 < a then a else r.geomArea
  | none => r.geomArea

/-- Lines 181-196: the shape-quality mask.  When `min_width_m` is not
positive the `_min_width` column is set to 9999.0 (line 188). -/
def shapePass (cfg : CleanerConfig) (r : GRow) : Bool :=
  decide (cfg.minCompactness ≤ r.compactness) &&
  decide (r.elongation ≤ cfg.maxElongation) &&
  decide (cfg.minWidthM ≤ (if 0 < cfg.minWidthM then r.minWidth else 9999))

/-- pandas `idxmax`: the label (`rid`) of the first row attaining the
maximum of `f`. -/
def idxmaxAux (f : GRow → ℚ) (bestRid : ℕ) (bestVal : ℚ) : List GRow → ℕ
  | [] => bestRid
  | r :: t =>
    if bestVal < f r then idxmaxAux f r.rid (f r) t else idxmaxAux f bestRid bestVal t

/-- pandas `idxmax` over a sub-frame. -/
def idxmaxRid (f : GRow → ℚ) : List GRow → Option ℕ
  | [] => none
  | r :: t => some (idxmaxAux f r.rid (f r) t)

/-- The inner candidate loop of `_deduplicate_within_source`
(lines 376-388) for seed position `i`: the spatial-index query is
modelled as returning every other position (an actual overlap implies
intersecting bounding boxes, so the subsequent `ov` test filters to the
same group); positions already visited are skipped. -/
def groupPass (ov : ℕ → ℕ → Bool) (rows : List GRow) (i : ℕ) (visited : List ℕ) :
    List ℕ :=
  i :: (List.range rows.length).filter
    (fun j => !(j == i) && (!(visited.contains j) && ov (rows.getD i default).rid (rows.getD j default).rid))

/-- One iteration of the outer loop of lines 376-391: skip a visited
position, otherwise mark the pass's group visited and keep it when its
size exceeds one. -/
def groupStep (ov : ℕ → ℕ → Bool) (rows : List GRow)
    (st : List ℕ × List (List ℕ)) (i : ℕ) : List ℕ × List (List ℕ) :=
  if st.1.contains i then st
  else
    let g := groupPass ov rows i st.1
    (st.1 ++ g, if 1 < g.length then st.2 ++ [g] else st.2)

/-- Lines 373-391: the pass building overlap groups; only groups of
size > 1 are kept. -/
def buildGroups (ov : ℕ → ℕ → Bool) (rows : List GRow) : List (List ℕ) :=
  ((List.range rows.length).foldl (groupStep ov rows) ([], [])).2

/-- Lines 397-424: resolve one group.  `group` holds dataframe
*positions* while `idxmax` returns an index *label*; the source mixes
the two in `set(group) - {keep_idx}`, which is reproduced here
verbatim.  The `union` strategy's `unary_union` row is the oracle
`mkUnion`. -/
def resolveGroup (strategy : String) (mkUnion : List GRow → GRow) (rows : List GRow)
    (st : List ℕ × List GRow) (g : List ℕ) : List ℕ × List GRow :=
  let sub := g.map (fun p => rows.getD p default)
  if strategy == "largest_area" then
    let keep := (idxmaxRid (fun r => r.geomArea) sub).getD 0
    (st.1 ++ g.filter (fun p => !(p == keep)), st.2)
  else if strategy == "highest_confidence" then
    let keep := (idxmaxRid (fun r => r.confidence) sub).getD 0
    (st.1 ++ g.filter (fun p => !(p == keep)), st.2)
  else if strategy == "union" then
    (st.1 ++ g, st.2 ++ [mkUnion sub])
  else
    let keep := (idxmaxRid (fun r => r.geomArea) sub).getD 0
    (st.1 ++ g.filter (fun p => !(p == keep)), st.2)

/-- `_deduplicate_within_source` (lines 366-430).  The final
`gdf_m.drop(index=to_drop)` drops by *label* and raises `KeyError` when
a collected position is not a live label; that exception propagates to
`clean`'s handler, modelled as `none`. -/
def deduplicateWithinSource (cfg : CleanerConfig) (ov : ℕ → ℕ → Bool)
    (mkUnion : List GRow → GRow) (rows : List GRow) : Option (List GRow) :=
  if rows.length ≤ 1 then some rows
  else
    let groups := buildGroups ov rows
    if groups.isEmpty then some rows
    else
      let res := groups.foldl (resolveGroup cfg.strategy mkUnion rows) ([], [])
      if res.1.all (fun l => (rows.map GRow.rid).contains l) then
        some ((rows.filter (fun r => !(res.1.contains r.rid))) ++ res.2)
      else none

/-- `_clean_google` (lines 90-209) as called through
`BuildingsCleaner.clean` (lines 69-87): empty input returns the original
collection; the confidence filter (line 115), the effective-area filter
(lines 121-131), the empty-check returning the original collection
(lines 133-134), the shape filters, deduplication, and — via `clean`'s
exception handler — the original collection when deduplication's drop
raises.  Simplification and reprojection alter geometry only, so rows
pass through them unchanged. -/
def cleanGoogle (cfg : CleanerConfig) (ov : ℕ → ℕ → Bool)
    (mkUnion : List GRow → GRow) (rows : List GRow) : List GRow :=
  if rows.isEmpty then rows
  else
    let afterConf := rows.filter (fun r => decide (cfg.googleMinConfidence ≤ r.confidence))
    let afterArea :=
      if 0 < cfg.minAreaM2 then
        afterConf.filter (fun r => decide (cfg.minAreaM2 ≤ effectiveArea r))
      else afterConf
    if afterArea.isEmpty then rows
    else
      let afterShape := afterArea.filter (shapePass cfg)
      match deduplicateWithinSource cfg ov mkUnion afterShape with
      | some cleaned => cleaned
      | none => rows

/-! ## Concrete sample inputs (used to instantiate the theorems below) -/

/-- A closed 4-vertex ring whose two right-hand vertices have an
out-of-range longitude. -/
def sampleRing : List (ℚ × ℚ) := [(0, 0), (200, 0), (200, 1), (0, 0)]

/-- Two enabled sources: one task succeeds, the other raises. -/
def sampleTasks : List (SourceType × TaskOutcome) :=
  [(SourceType.osmBuildings,
    TaskOutcome.ok ⟨SourceType.osmBuildings, ProcessingStatus.completed, 3, none⟩),
   (SourceType.osmRoads, TaskOutcome.exn "upstream query failed")]

/-- A building row with `confidence = 0.5`. -/
def lowConfRow : GRow := ⟨0, mkRat 1 2, none, 10, 1, 1, 10⟩

/-- A building row with `confidence = 0.9`, `area_in_meters = 12`, and
shape metrics passing every default filter. -/
def highConfRow : GRow := ⟨1, mkRat 9 10, some 12, 12, 1, 1, 10⟩

/-- A closed 4-point coordinate ring of an Overpass element. -/
def closedRelationRing : List (ℚ × ℚ) := [(0, 0), (1, 0), (1, 1), (0, 0)]

/-- A feature whose only property is a `description`. -/
def descFeature : CsvFeature :=
  ⟨none, some "Point", some "POINT (0 0)", [("description", PropValue.str "verbose text")]⟩

/-- An aggregate with one source carrying `descFeature`. -/
def descResults : List CsvSourceResult :=
  [⟨SourceType.osmBuildings, ProcessingStatus.completed, [descFeature]⟩]

/-- A feature with a space in a property key. -/
def spacedFeature : CsvFeature :=
  ⟨none, some "Point", some "POINT (0 0)", [("my key", PropValue.str "v")]⟩

/-- An aggregate with one source carrying `spacedFeature`. -/
def spacedResults : List CsvSourceResult :=
  [⟨SourceType.osmLandmarks, ProcessingStatus.completed, [spacedFeature]⟩]

/-! ## Dictionary lemmas -/

theorem dictGet_insert_self {β : Type} (k : String) (v : β) (l : List (String × β)) :
    dictGet k (dictInsert k v l) = some v := by
  induction l with
  | nil => simp [dictInsert, dictGet]
  | cons h t ih =>
    obtain ⟨k1, v1⟩ := h
    by_cases hk : k1 = k
    · subst hk
      simp [dictInsert, dictGet]
    · simpa [dictInsert, dictGet, hk] using ih

theorem dictGet_insert_ne {β : Type} (k k' : String) (v : β) (l : List (String × β))
    (h : k' ≠ k) : dictGet k (dictInsert k' v l) = dictGet k l := by
  induction l with
  | nil => simp [dictInsert, dictGet, h]
  | cons hd t ih =>
    obtain ⟨k1, v1⟩ := hd
    by_cases hk : k1 = k'
    · subst hk
      simp [dictInsert, dictGet, h]
    · by_cases hk2 : k1 = k
      · subst hk2
        simp [dictInsert, dictGet, hk]
      · simpa [dictInsert, dictGet, hk, hk2] using ih

theorem dictGet_filter_insert {β : Type} (k : String) (v : β) (l : List (String × β))
    (pred : String × β → Bool) (hv : pred (k, v) = true) :
    dictGet k ((dictInsert k v l).filter pred) = some v := by
  induction l with
  | nil => simp [dictInsert, dictGet, hv]
  | cons hd t ih =>
    obtain ⟨k1, v1⟩ := hd
    by_cases hk : k1 = k
    · subst hk
      simp [dictInsert, dictGet, hv, List.filter]
    · by_cases hp : pred (k1, v1) = true
      · simpa [dictInsert, dictGet, hk, List.filter, hp] using ih
      · simpa [dictInsert, dictGet, hk, List.filter, hp] using ih

theorem dictGet_erase_key {β : Type} (k : String) (l : List (String × β)) :
    dictGet k (l.filter (fun p => !(p.1 == k))) = none := by
  have h : List.find? (fun p => p.1 == k) (l.filter (fun p => !(p.1 == k))) = none := by
    rw [List.find?_eq_none]
    intro p hp
    have := (List.mem_filter.mp hp).2
    simpa using this
  simp [dictGet, h]

theorem mem_keys_insert_self {β : Type} (k : String) (v : β) (l : List (String × β)) :
    k ∈ (dictInsert k v l).map Prod.fst := by
  induction l with
  | nil => simp [dictInsert]
  | cons hd t ih =>
    obtain ⟨k1, v1⟩ := hd
    by_cases hk : k1 = k
    · subst hk
      simp [dictInsert]
    · simp only [dictInsert, if_neg hk, List.map_cons, List.mem_cons]
      exact Or.inr ih

theorem mem_keys_insert_of_mem {β : Type} (k k' : String) (v : β) (l : List (String × β))
    (h : k ∈ l.map Prod.fst) : k ∈ (dictInsert k' v l).map Prod.fst := by
  induction l with
  | nil => simp at h
  | cons hd t ih =>
    obtain ⟨k1, v1⟩ := hd
    simp only [List.map_cons, List.mem_cons] at h
    by_cases hk : k1 = k'
    · simp only [dictInsert, if_pos hk, List.map_cons, List.mem_cons]
      rcases h with h | h
      · exact Or.inl (h.trans hk)
      · exact Or.inr h
    · simp only [dictInsert, if_neg hk, List.map_cons, List.mem_cons]
      rcases h with h | h
      · exact Or.inl h
      · exact Or.inr (ih h)

/-! ## Job storage: store followed by get -/

theorem dictGet_store {α : Type} (s : JobStore α) (jobId : String) (r : α)
    (ttl t0 : ℚ) (httl : 0 < ttl) :
    dictGet jobId ((s.storeJobResult jobId r ttl t0).2).storage =
      some ⟨r, t0 + ttl, t0⟩ := by
  unfold JobStore.storeJobResult JobStore.cleanupExpired
  by_cases hgate : t0 - s.lastCleanup < 300
  · simpa [hgate] using dictGet_insert_self jobId (⟨r, t0 + ttl, t0⟩ : JobEntry α) s.storage
  · simp only [hgate, if_false]
    apply dictGet_filter_insert
    simp only [Bool.not_eq_true', decide_eq_false_iff_not, not_lt]
    linarith

/-- Claim C8: a result stored with a positive TTL is returned by a get
at or before the expiry instant, and a get after the expiry instant
returns absent and removes the entry from the store. -/
theorem job_ttl_expiry {α : Type} (s : JobStore α) (jobId : String) (r : α)
    (ttl t0 t1 : ℚ) (httl : 0 < ttl) :
    (t1 ≤ t0 + ttl →
      (((s.storeJobResult jobId r ttl t0).2).getJobResult jobId t1).1 = some r) ∧
    (t0 + ttl < t1 →
      (((s.storeJobResult jobId r ttl t0).2).getJobResult jobId t1).1 = none ∧
      dictGet jobId ((((s.storeJobResult jobId r ttl t0).2).getJobResult jobId t1).2).storage =
        none) := by
  have hg := dictGet_store s jobId r ttl t0 httl
  constructor
  · intro hle
    unfold JobStore.getJobResult
    rw [hg]
    simp [not_lt.mpr hle]
  · intro hlt
    unfold JobStore.getJobResult
    rw [hg]
    simp [hlt, dictGet_erase_key]

/-- Witness for C8 at a concrete store: TTL 10, get at t=5 and t=11. -/
theorem job_ttl_expiry_witness :
    ((((JobStore.init 0 : JobStore ℕ).storeJobResult "job" 42 10 0).2).getJobResult
        "job" 5).1 = some 42 ∧
    ((((JobStore.init 0 : JobStore ℕ).storeJobResult "job" 42 10 0).2).getJobResult
        "job" 11).1 = none := by
  constructor
  · exact (job_ttl_expiry (JobStore.init 0) "job" 42 10 0 5 (by norm_num)).1 (by norm_num)
  · exact ((job_ttl_expiry (JobStore.init 0) "job" 42 10 0 11 (by norm_num)).2
      (by norm_num)).1

/-! ## Legacy download route -/

/-- Claim C3: the legacy download route looks the job up in a freshly
constructed, empty store, so it answers 404 for every job id — even one
under which a result was just stored in a different store instance. -/
theorem legacy_download_always_404 {α : Type} (other : JobStore α) (jobId : String)
    (r : α) (ttl t0 now : ℚ) :
    (other.storeJobResult jobId r ttl t0).1 = true ∧
    (JobStore.init now : JobStore α).storage = [] ∧
    downloadExport α jobId now = DownloadOutcome.notFound404 := by
  refine ⟨rfl, rfl, ?_⟩
  simp [downloadExport, JobStore.init, JobStore.getJobResult, dictGet]

/-! ## AOI validation -/

/-- Counterexample to claim C2 as stated: a 3-vertex open ring violates
both the closure rule and the ≥4-coordinates rule, but the validator
reports only the closure error — the checks short-circuit. -/
theorem validator_short_circuits :
    ([((0 : ℚ), (0 : ℚ)), (1, 0), (1, 1)] : List (ℚ × ℚ)).length < 4 ∧
    (validateAoiPolygon true 1 [((0 : ℚ), (0 : ℚ)), (1, 0), (1, 1)] 100).2.2 =
      [AoiError.notClosed] ∧
    AoiError.tooFewCoordinates ∉
      (validateAoiPolygon true 1 [((0 : ℚ), (0 : ℚ)), (1, 0), (1, 1)] 100).2.2 := by
  decide

/-- Claim C2 (amended): the validator collects all out-of-range
longitude/latitude violations together, but only once every earlier
rule (topology, closure, coordinate count, positive area, maximum area)
passes; a violation of any earlier rule short-circuits and is reported
as exactly one error. -/
theorem validator_error_collection (isValid : Bool) (a : ℚ) (cs : List (ℚ × ℚ)) (m : ℚ) :
    (isValid = true → cs.head? = cs.getLast? → ¬(cs.length < 4) → 0 < a → a ≤ m →
      (validateAoiPolygon isValid a cs m).2.2 = collectBoundErrors cs) ∧
    ((isValid = false ∨ cs.head? ≠ cs.getLast? ∨ cs.length < 4 ∨ a ≤ 0 ∨ m < a) →
      (validateAoiPolygon isValid a cs m).2.2.length = 1) := by
  constructor
  · intro hv hcl hlen ha ham
    subst hv
    simp only [validateAoiPolygon, Bool.not_true, Bool.false_eq_true, if_false,
      hcl, ne_eq, not_true_eq_false, if_neg hlen, if_neg (not_le.mpr ha),
      if_neg (not_lt.mpr ham)]
    by_cases h : collectBoundErrors cs = [] <;> simp [h]
  · intro h
    by_cases h1 : isValid = false
    · simp [validateAoiPolygon, h1]
    · have hv : isValid = true := by revert h1; cases isValid <;> simp
      subst hv
      by_cases h2 : cs.head? = cs.getLast?
      · by_cases h3 : cs.length < 4
        · simp [validateAoiPolygon, h2, h3]
        · by_cases h4 : a ≤ 0
          · simp [validateAoiPolygon, h2, h3, h4]
          · by_cases h5 : m < a
            · simp [validateAoiPolygon, h2, h3, h4, h5]
            · rcases h with h | h | h | h | h <;> simp_all
      · simp [validateAoiPolygon, h2]

/-- Witness for C2 (amended) at a closed 4-vertex ring with two
out-of-range longitudes, and at a topologically invalid ring. -/
theorem validator_error_collection_witness :
    (validateAoiPolygon true 1 sampleRing 100).2.2 = collectBoundErrors sampleRing ∧
    (validateAoiPolygon false 1 sampleRing 100).2.2.length = 1 := by
  constructor
  · exact (validator_error_collection true 1 sampleRing 100).1 rfl (by decide) (by decide)
      (by decide) (by decide)
  · exact (validator_error_collection false 1 sampleRing 100).2 (Or.inl rfl)

/-! ## Bounding boxes -/

theorem boundsAux_west_le (b : BBox) (l : List (ℚ × ℚ)) :
    (boundsAux b l).west ≤ b.west := by
  induction l generalizing b with
  | nil => simp [boundsAux]
  | cons p t ih => exact le_trans (ih _) (min_le_left _ _)

theorem boundsAux_south_le (b : BBox) (l : List (ℚ × ℚ)) :
    (boundsAux b l).south ≤ b.south := by
  induction l generalizing b with
  | nil => simp [boundsAux]
  | cons p t ih => exact le_trans (ih _) (min_le_left _ _)

theorem le_boundsAux_east (b : BBox) (l : List (ℚ × ℚ)) :
    b.east ≤ (boundsAux b l).east := by
  induction l generalizing b with
  | nil => simp [boundsAux]
  | cons p t ih => exact le_trans (le_max_left _ _) (ih _)

theorem le_boundsAux_north (b : BBox) (l : List (ℚ × ℚ)) :
    b.north ≤ (boundsAux b l).north := by
  induction l generalizing b with
  | nil => simp [boundsAux]
  | cons p t ih => exact le_trans (le_max_left _ _) (ih _)

theorem boundsAux_mem (b : BBox) (l : List (ℚ × ℚ)) (p : ℚ × ℚ) (hp : p ∈ l) :
    (boundsAux b l).west ≤ p.1 ∧ (boundsAux b l).south ≤ p.2 ∧
    p.1 ≤ (boundsAux b l).east ∧ p.2 ≤ (boundsAux b l).north := by
  induction l generalizing b with
  | nil => cases hp
  | cons q t ih =>
    rcases List.mem_cons.mp hp with h | h
    · subst h
      simp only [boundsAux]
      exact ⟨le_trans (boundsAux_west_le _ _) (min_le_right _ _),
             le_trans (boundsAux_south_le _ _) (min_le_right _ _),
             le_trans (le_max_right _ _) (le_boundsAux_east _ _),
             le_trans (le_max_right _ _) (le_boundsAux_north _ _)⟩
    · simp only [boundsAux]
      exact ih _ h

theorem polygonBounds_mem (coords : List (ℚ × ℚ)) (p : ℚ × ℚ) (hp : p ∈ coords) :
    (polygonBounds coords).west ≤ p.1 ∧ (polygonBounds coords).south ≤ p.2 ∧
    p.1 ≤ (polygonBounds coords).east ∧ p.2 ≤ (polygonBounds coords).north := by
  cases coords with
  | nil => cases hp
  | cons q t =>
    rcases List.mem_cons.mp hp with h | h
    · subst h
      simp only [polygonBounds]
      exact ⟨boundsAux_west_le _ _, boundsAux_south_le _ _,
             le_boundsAux_east _ _, le_boundsAux_north _ _⟩
    · simp only [polygonBounds]
      exact boundsAux_mem _ t p h

/-- Claim C10: the Overpass buildings query uses the AOI envelope
expanded on all four sides by the default 0.1 km buffer converted to
degrees as 0.1/111, so the query bbox strictly contains the polygon's
envelope and every polygon vertex lies strictly inside it. -/
theorem overpass_bbox_buffer (coords : List (ℚ × ℚ)) :
    extractBuildingsBbox coords =
      ⟨(polygonBounds coords).west - defaultBufferKm / 111,
       (polygonBounds coords).south - defaultBufferKm / 111,
       (polygonBounds coords).east + defaultBufferKm / 111,
       (polygonBounds coords).north + defaultBufferKm / 111⟩ ∧
    (extractBuildingsBbox coords).west < (polygonBounds coords).west ∧
    (extractBuildingsBbox coords).south < (polygonBounds coords).south ∧
    (polygonBounds coords).east < (extractBuildingsBbox coords).east ∧
    (polygonBounds coords).north < (extractBuildingsBbox coords).north ∧
    (∀ p ∈ coords,
      (extractBuildingsBbox coords).west < p.1 ∧ p.1 < (extractBuildingsBbox coords).east ∧
      (extractBuildingsBbox coords).south < p.2 ∧
      p.2 < (extractBuildingsBbox coords).north) := by
  have hbuf : (0 : ℚ) < defaultBufferKm := by decide
  have hdeg : (0 : ℚ) < defaultBufferKm / 111 := by positivity
  have heq : extractBuildingsBbox coords =
      ⟨(polygonBounds coords).west - defaultBufferKm / 111,
       (polygonBounds coords).south - defaultBufferKm / 111,
       (polygonBounds coords).east + defaultBufferKm / 111,
       (polygonBounds coords).north + defaultBufferKm / 111⟩ := by
    simp [extractBuildingsBbox, createBoundingBox, hbuf]
  refine ⟨heq, ?_, ?_, ?_, ?_, ?_⟩
  · rw [heq]; exact sub_lt_self _ hdeg
  · rw [heq]; exact sub_lt_self _ hdeg
  · rw [heq]; exact lt_add_of_pos_right _ hdeg
  · rw [heq]; exact lt_add_of_pos_right _ hdeg
  · intro p hp
    have hb := polygonBounds_mem coords p hp
    rw [heq]
    constructor
    · dsimp only; linarith [hb.1]
    constructor
    · dsimp only; linarith [hb.2.2.1]
    constructor
    · dsimp only; linarith [hb.2.1]
    · dsimp only; linarith [hb.2.2.2]

/-- Witness for C10 at a concrete ring containing the origin. -/
theorem overpass_bbox_buffer_witness :
    (extractBuildingsBbox sampleRing).west < (polygonBounds sampleRing).west ∧
    (extractBuildingsBbox sampleRing).west < ((0 : ℚ), (0 : ℚ)).1 :=
  ⟨(overpass_bbox_buffer sampleRing).2.1,
   ((overpass_bbox_buffer sampleRing).2.2.2.2.2 ((0 : ℚ), (0 : ℚ)) (by decide)).1⟩

/-! ## Aggregation -/

theorem keys_processSources (tasks : List (SourceType × TaskOutcome)) :
    (processSourcesConcurrently tasks).map Prod.fst = tasks.map Prod.fst := by
  induction tasks with
  | nil => rfl
  | cons t ts ih =>
    obtain ⟨st, o⟩ := t
    cases o <;> simpa [processSourcesConcurrently] using ih

/-- Claim C1: after per-source processing the results map has exactly
one entry per enabled source (the same keys, in order), the overall
status is failed iff zero sources completed, completed iff all
completed, partial otherwise, and a task that raised yields a FAILED
entry for its source without removing any sibling's entry. -/
theorem aggregation_status (tasks : List (SourceType × TaskOutcome))
    (hN : 0 < tasks.length) :
    (processSourcesConcurrently tasks).length = tasks.length ∧
    (processSourcesConcurrently tasks).map Prod.fst = tasks.map Prod.fst ∧
    (overallStatus (processSourcesConcurrently tasks) = ProcessingStatus.failed ↔
      successfulSources (processSourcesConcurrently tasks) = 0) ∧
    (overallStatus (processSourcesConcurrently tasks) = ProcessingStatus.completed ↔
      successfulSources (processSourcesConcurrently tasks) = tasks.length) ∧
    (overallStatus (processSourcesConcurrently tasks) = ProcessingStatus.partialResult ↔
      (0 < successfulSources (processSourcesConcurrently tasks) ∧
       successfulSources (processSourcesConcurrently tasks) < tasks.length)) ∧
    (∀ st msg, (st, TaskOutcome.exn msg) ∈ tasks →
      (st, createErrorResult st msg) ∈ processSourcesConcurrently tasks) := by
  have hlen : (processSourcesConcurrently tasks).length = tasks.length := by
    simp [processSourcesConcurrently]
  have hsle : successfulSources (processSourcesConcurrently tasks) ≤ tasks.length := by
    calc successfulSources (processSourcesConcurrently tasks)
        ≤ (processSourcesConcurrently tasks).length := List.length_filter_le _ _
      _ = tasks.length := hlen
  refine ⟨hlen, keys_processSources tasks, ?_, ?_, ?_, ?_⟩
  · constructor
    · intro h
      by_contra hne
      unfold overallStatus at h
      rw [if_neg hne] at h
      by_cases h2 : successfulSources (processSourcesConcurrently tasks) =
          (processSourcesConcurrently tasks).length <;> simp [h2] at h
    · intro h
      simp [overallStatus, h]
  · constructor
    · intro h
      unfold overallStatus at h
      by_cases h0 : successfulSources (processSourcesConcurrently tasks) = 0
      · rw [if_pos h0] at h
        exact absurd h (by simp)
      · rw [if_neg h0] at h
        by_cases h2 : successfulSources (processSourcesConcurrently tasks) =
            (processSourcesConcurrently tasks).length
        · rw [hlen] at h2
          exact h2
        · rw [if_neg h2] at h
          exact absurd h (by simp)
    · intro h
      have h2 : successfulSources (processSourcesConcurrently tasks) =
          (processSourcesConcurrently tasks).length := by rw [hlen]; exact h
      have h0 : successfulSources (processSourcesConcurrently tasks) ≠ 0 := by
        rw [h]; omega
      unfold overallStatus
      rw [if_neg h0, if_pos h2]
  · constructor
    · intro h
      unfold overallStatus at h
      by_cases h0 : successfulSources (processSourcesConcurrently tasks) = 0
      · rw [if_pos h0] at h
        exact absurd h (by simp)
      · by_cases h2 : successfulSources (processSourcesConcurrently tasks) =
            (processSourcesConcurrently tasks).length
        · rw [if_neg h0, if_pos h2] at h
          exact absurd h (by simp)
        · rw [hlen] at h2
          omega
    · intro h
      have h0 : successfulSources (processSourcesConcurrently tasks) ≠ 0 := by omega
      have h2 : successfulSources (processSourcesConcurrently tasks) ≠
          (processSourcesConcurrently tasks).length := by rw [hlen]; omega
      simp [overallStatus, h0, h2]
  · intro st msg hmem
    have := List.mem_map_of_mem
      (fun t : SourceType × TaskOutcome =>
        match t.2 with
        | TaskOutcome.ok r => (t.1, r)
        | TaskOutcome.exn m => (t.1, createErrorResult t.1 m)) hmem
    simpa [processSourcesConcurrently] using this

/-- Witness for C1: two enabled sources, the second raising; the
aggregate keeps both keys, records a FAILED entry for the raiser, and
reports partial. -/
theorem aggregation_status_witness :
    (processSourcesConcurrently sampleTasks).length = sampleTasks.length ∧
    (SourceType.osmRoads, createErrorResult SourceType.osmRoads "upstream query failed") ∈
      processSourcesConcurrently sampleTasks ∧
    overallStatus (processSourcesConcurrently sampleTasks) =
      ProcessingStatus.partialResult := by
  have h := aggregation_status sampleTasks (by decide)
  exact ⟨h.1, h.2.2.2.2.2 _ _ (by decide), (h.2.2.2.2.1).mpr (by decide)⟩

/-! ## Overpass relation conversion -/

/-- Claim C5 (code bug): a relation element carrying a closed 4-point
geometry array yields no feature — the conversion falls through to the
trailing `return None` — although the relation branch constructs
exactly the feature the way rule would produce, and the same geometry
as a way does convert to a Polygon feature seeded with `osm_type`,
`osm_id` and the upstream tags. -/
theorem relation_conversion_dropped :
    convertOsmElementToFeature id false
      (OsmElement.relation 7 [("building", "yes")] (some closedRelationRing)) = none ∧
    relationBranchFeature 7 [("building", "yes")] (some closedRelationRing) =
      some ⟨"relation/7", GeoGeometry.polygon closedRelationRing,
            [("osm_type", "relation"), ("osm_id", "7"), ("building", "yes")]⟩ ∧
    convertOsmElementToFeature id false
      (OsmElement.way 7 [("building", "yes")] (some closedRelationRing)) =
      some ⟨"way/7", GeoGeometry.polygon closedRelationRing,
            [("osm_type", "way"), ("osm_id", "7"), ("building", "yes")]⟩ := by
  refine ⟨rfl, ?_, ?_⟩ <;> decide

/-! ## Google buildings cleaning -/

theorem buildGroups_ov_false (ov : ℕ → ℕ → Bool) (rows : List GRow)
    (hov : ∀ a b, ov a b = false) : buildGroups ov rows = [] := by
  have hstep : ∀ (l : List ℕ) (st : List ℕ × List (List ℕ)), st.2 = [] →
      (l.foldl (groupStep ov rows) st).2 = [] := by
    intro l
    induction l with
    | nil => intro st h; simpa using h
    | cons i t ih =>
      intro st h
      simp only [List.foldl_cons]
      apply ih
      unfold groupStep
      by_cases hv : i ∈ st.1
      · simp [hv, h]
      · have hg : groupPass ov rows i st.1 = [i] := by
          unfold groupPass
          congr 1
          rw [List.filter_eq_nil_iff]
          intro j hj
          simp [hov]
        simp [hv, hg, h]
  exact hstep _ _ rfl

theorem dedup_id_of_no_overlap (cfg : CleanerConfig) (ov : ℕ → ℕ → Bool)
    (mkUnion : List GRow → GRow) (rows : List GRow)
    (hov : ∀ a b, ov a b = false) :
    deduplicateWithinSource cfg ov mkUnion rows = some rows := by
  unfold deduplicateWithinSource
  by_cases hl : rows.length ≤ 1
  · simp [hl]
  · simp [hl, buildGroups_ov_false ov rows hov]

/-- Claim C9: when the confidence and minimum-area filters together
remove every feature — in particular for an all-low-confidence input —
the Google cleaning path returns the original collection unchanged. -/
theorem google_clean_empty_fallback (cfg : CleanerConfig) (ov : ℕ → ℕ → Bool)
    (mkUnion : List GRow → GRow) (rows : List GRow)
    (h : ∀ r ∈ rows, r.confidence < cfg.googleMinConfidence ∨
         (0 < cfg.minAreaM2 ∧ effectiveArea r < cfg.minAreaM2)) :
    cleanGoogle cfg ov mkUnion rows = rows := by
  by_cases hemp : rows.isEmpty = true
  · unfold cleanGoogle
    simp [hemp]
  · have hemp' : rows.isEmpty = false := Bool.eq_false_iff.mpr hemp
    have hA : (if 0 < cfg.minAreaM2 then
        (rows.filter fun r => decide (cfg.googleMinConfidence ≤ r.confidence)).filter
          (fun r => decide (cfg.minAreaM2 ≤ effectiveArea r))
      else rows.filter fun r => decide (cfg.googleMinConfidence ≤ r.confidence)) = [] := by
      by_cases hm : 0 < cfg.minAreaM2
      · rw [if_pos hm, List.filter_eq_nil_iff]
        intro r hr
        have hrr := List.mem_filter.mp hr
        rcases h r hrr.1 with hc | ⟨_, ha⟩
        · exact absurd (of_decide_eq_true hrr.2) (not_le.mpr hc)
        · simpa using not_le.mpr ha
      · rw [if_neg hm, List.filter_eq_nil_iff]
        intro r hr
        rcases h r hr with hc | ⟨hm', _⟩
        · simpa using not_le.mpr hc
        · exact absurd hm' hm
    unfold cleanGoogle
    simp only [hemp', Bool.false_eq_true, if_false]
    rw [hA]
    simp

/-- Witness for C9: a single feature below the default confidence
threshold passes through cleaning unchanged. -/
theorem google_clean_empty_fallback_witness :
    cleanGoogle defaultCleanerConfig (fun _ _ => false) (fun _ => default) [lowConfRow] =
      [lowConfRow] :=
  google_clean_empty_fallback defaultCleanerConfig (fun _ _ => false) (fun _ => default)
    [lowConfRow] (by decide)

/-- Counterexample to claim C4 as stated: a collection consisting of a
single `confidence = 0.5` feature is returned unchanged by the cleaner
(the working set empties, so the original collection is returned), so
the 0.5-confidence feature is present in the output. -/
theorem google_clean_low_confidence_retained :
    lowConfRow.confidence < defaultCleanerConfig.googleMinConfidence ∧
    cleanGoogle defaultCleanerConfig (fun _ _ => false) (fun _ => default) [lowConfRow] =
      [lowConfRow] := by
  constructor <;> decide

/-- Claim C4 (amended): provided at least one feature survives the
confidence and minimum-area filters and no two features significantly
overlap, every feature in the cleaner's output meets the minimum
confidence (so a 0.5-confidence feature is absent under the default
0.65 threshold), and every feature meeting the confidence, effective
area and shape-quality thresholds is present in the output. -/
theorem google_clean_filters (cfg : CleanerConfig) (ov : ℕ → ℕ → Bool)
    (mkUnion : List GRow → GRow) (rows : List GRow) (r0 : GRow)
    (hmem : r0 ∈ rows) (hc0 : cfg.googleMinConfidence ≤ r0.confidence)
    (ha0 : cfg.minAreaM2 ≤ effectiveArea r0)
    (hov : ∀ a b, ov a b = false) :
    (∀ r ∈ cleanGoogle cfg ov mkUnion rows, cfg.googleMinConfidence ≤ r.confidence) ∧
    (∀ r ∈ rows, cfg.googleMinConfidence ≤ r.confidence →
      cfg.minAreaM2 ≤ effectiveArea r → shapePass cfg r = true →
      r ∈ cleanGoogle cfg ov mkUnion rows) := by
  have hne : rows.isEmpty = false := by
    cases rows
    · cases hmem
    · rfl
  have hr0conf : r0 ∈ rows.filter (fun r => decide (cfg.googleMinConfidence ≤ r.confidence)) :=
    List.mem_filter.mpr ⟨hmem, decide_eq_true hc0⟩
  have hr0area : r0 ∈ (if 0 < cfg.minAreaM2 then
      (rows.filter fun r => decide (cfg.googleMinConfidence ≤ r.confidence)).filter
        (fun r => decide (cfg.minAreaM2 ≤ effectiveArea r))
    else rows.filter fun r => decide (cfg.googleMinConfidence ≤ r.confidence)) := by
    by_cases hm : 0 < cfg.minAreaM2
    · rw [if_pos hm]
      exact List.mem_filter.mpr ⟨hr0conf, decide_eq_true ha0⟩
    · rw [if_neg hm]
      exact hr0conf
  have hAAne : (if 0 < cfg.minAreaM2 then
      (rows.filter fun r => decide (cfg.googleMinConfidence ≤ r.confidence)).filter
        (fun r => decide (cfg.minAreaM2 ≤ effectiveArea r))
    else rows.filter fun r => decide (cfg.googleMinConfidence ≤ r.confidence)).isEmpty
      = false := by
    cases hAcase : (if 0 < cfg.minAreaM2 then
        (rows.filter fun r => decide (cfg.googleMinConfidence ≤ r.confidence)).filter
          (fun r => decide (cfg.minAreaM2 ≤ effectiveArea r))
      else rows.filter fun r => decide (cfg.googleMinConfidence ≤ r.confidence)) with
    | nil =>
      rw [hAcase] at hr0area
      cases hr0area
    | cons x xs => rfl
  have hclean : cleanGoogle cfg ov mkUnion rows =
      ((if 0 < cfg.minAreaM2 then
          (rows.filter fun r => decide (cfg.googleMinConfidence ≤ r.confidence)).filter
            (fun r => decide (cfg.minAreaM2 ≤ effectiveArea r))
        else rows.filter fun r => decide (cfg.googleMinConfidence ≤ r.confidence)).filter
        (shapePass cfg)) := by
    unfold cleanGoogle
    simp only [hne, Bool.false_eq_true, if_false]
    simp only [hAAne, Bool.false_eq_true, if_false]
    rw [dedup_id_of_no_overlap cfg ov mkUnion _ hov]
  constructor
  · intro r hr
    rw [hclean] at hr
    have h1 := (List.mem_filter.mp hr).1
    have h2 : r ∈ rows.filter (fun r => decide (cfg.googleMinConfidence ≤ r.confidence)) := by
      by_cases hm : 0 < cfg.minAreaM2
      · rw [if_pos hm] at h1
        exact (List.mem_filter.mp h1).1
      · rw [if_neg hm] at h1
        exact h1
    exact of_decide_eq_true (List.mem_filter.mp h2).2
  · intro r hr hcr har hsr
    rw [hclean]
    refine List.mem_filter.mpr ⟨?_, hsr⟩
    by_cases hm : 0 < cfg.minAreaM2
    · rw [if_pos hm]
      exact List.mem_filter.mpr
        ⟨List.mem_filter.mpr ⟨hr, decide_eq_true hcr⟩, decide_eq_true har⟩
    · rw [if_neg hm]
      exact List.mem_filter.mpr ⟨hr, decide_eq_true hcr⟩

/-- Witness for C4 (amended): a 0.5-confidence and a 0.9-confidence
feature together — every output feature meets the threshold and the
0.9-confidence feature is retained. -/
theorem google_clean_filters_witness :
    (∀ r ∈ cleanGoogle defaultCleanerConfig (fun _ _ => false) (fun _ => default)
        [lowConfRow, highConfRow],
      defaultCleanerConfig.googleMinConfidence ≤ r.confidence) ∧
    highConfRow ∈ cleanGoogle defaultCleanerConfig (fun _ _ => false) (fun _ => default)
        [lowConfRow, highConfRow] := by
  have h := google_clean_filters defaultCleanerConfig (fun _ _ => false)
    (fun _ => default) [lowConfRow, highConfRow] highConfRow (by decide) (by decide)
    (by decide) (fun _ _ => rfl)
  exact ⟨h.1, h.2 highConfRow (by decide) (by decide) (by decide) (by decide)⟩

/-! ## Building property processor: the confidence field -/

theorem cleanPropStep_shape (props acc : List (String × PropValue)) (name : String) :
    cleanPropStep props acc name = acc ∨
    ∃ cv, cleanPropStep props acc name = dictInsert name cv acc := by
  unfold cleanPropStep
  split
  · exact Or.inl rfl
  · exact Or.inl rfl
  · split
    · exact Or.inr ⟨_, rfl⟩
    · exact Or.inl rfl

theorem dictGet_cleanPropStep_ne (props acc : List (String × PropValue))
    (name k : String) (h : name ≠ k) :
    dictGet k (cleanPropStep props acc name) = dictGet k acc := by
  rcases cleanPropStep_shape props acc name with heq | ⟨cv, heq⟩
  · rw [heq]
  · rw [heq, dictGet_insert_ne k name cv acc h]

theorem dictGet_foldl_cleanPropStep (names : List String)
    (props acc : List (String × PropValue)) (k : String) (h : ∀ n ∈ names, n ≠ k) :
    dictGet k (names.foldl (cleanPropStep props) acc) = dictGet k acc := by
  induction names generalizing acc with
  | nil => rfl
  | cons n t ih =>
    simp only [List.foldl_cons]
    rw [ih _ (fun x hx => h x (List.mem_cons_of_mem _ hx)),
      dictGet_cleanPropStep_ne props acc n k (h n (List.mem_cons_self _ _))]

theorem dictGet_conf_processGoogle (original clean : List (String × PropValue)) :
    dictGet "confidence" (processGoogleBuildingsProperties original clean) =
      dictGet "confidence" clean := by
  unfold processGoogleBuildingsProperties
  split
  · rfl
  · split
    · exact dictGet_insert_ne _ _ _ _ (by decide)
    · rfl
  · exact dictGet_insert_ne _ _ _ _ (by decide)
  · rfl

theorem dictGet_conf_processOsm (original clean : List (String × PropValue)) :
    dictGet "confidence" (processOsmBuildingsProperties original clean) =
      dictGet "confidence" clean := by
  unfold processOsmBuildingsProperties
  split
  · rfl
  · split
    · rfl
    · exact dictGet_insert_ne _ _ _ _ (by decide)

theorem dictGet_conf_createClean (props : List (String × PropValue)) (src : SourceType) :
    dictGet "confidence" (createCleanBuildingProperties props src) =
      dictGet "confidence"
        (essentialBuildingProperties.foldl (cleanPropStep props)
          [("Name", PropValue.str "")]) := by
  unfold createCleanBuildingProperties
  by_cases h1 : src = SourceType.googleBuildings
  · rw [if_pos h1]
    exact dictGet_conf_processGoogle _ _
  · rw [if_neg h1]
    by_cases h2 : src = SourceType.microsoftBuildings
    · rw [if_pos h2]
    · rw [if_neg h2]
      by_cases h3 : src = SourceType.osmBuildings
      · rw [if_pos h3]
        exact dictGet_conf_processOsm _ _
      · rw [if_neg h3]

/-- Claim C6 (amended): for a building feature with a numeric
`confidence` value, the Building Property Processor copies it, rounded
to 4 decimals, only when it already lies inside [0,1]; a numeric value
outside [0,1] is rejected — the output property bag carries no
`confidence` key at all (it is not clamped). -/
theorem building_confidence_not_clamped (props : List (String × PropValue))
    (src : SourceType) (v : PropValue) (c : ℚ)
    (hb : isBuildingSource src = true)
    (hv : dictGet "confidence" props = some v) (hc : asNumber v = some c) :
    (0 ≤ c → c ≤ 1 →
      dictGet "confidence" (processBuildingFeature src props) =
        some (PropValue.num (pyRound c 4))) ∧
    (¬(0 ≤ c ∧ c ≤ 1) →
      dictGet "confidence" (processBuildingFeature src props) = none) := by
  have hpf : processBuildingFeature src props = createCleanBuildingProperties props src := by
    unfold processBuildingFeature
    rw [if_pos hb]
  have hfold : dictGet "confidence"
      (essentialBuildingProperties.foldl (cleanPropStep props) [("Name", PropValue.str "")]) =
      dictGet "confidence" (cleanPropStep props [("Name", PropValue.str "")] "confidence") := by
    show dictGet "confidence"
      (List.foldl (cleanPropStep props) [("Name", PropValue.str "")]
        ("confidence" :: ["full_plus_code", "longitude_latitude", "area_in_meters",
          "height", "levels", "building_type"])) = _
    rw [List.foldl_cons]
    exact dictGet_foldl_cleanPropStep _ props _ "confidence" (by decide)
  constructor
  · intro h0 h1
    rw [hpf, dictGet_conf_createClean, hfold]
    cases v with
    | str s => cases hc
    | nullV => cases hc
    | obj coords => cases hc
    | num q =>
      have hq : q = c := by
        simpa [asNumber] using hc
      subst hq
      have hcpv : cleanPropertyValue "confidence" (PropValue.num q) =
          some (PropValue.num (pyRound q 4)) := by
        simp [cleanPropertyValue, asNumber, h0, h1]
      have hstep : cleanPropStep props [("Name", PropValue.str "")] "confidence" =
          dictInsert "confidence" (PropValue.num (pyRound q 4))
            [("Name", PropValue.str "")] := by
        simp [cleanPropStep, hv, hcpv]
      rw [hstep, dictGet_insert_self]
    | boolean b =>
      cases b with
      | true =>
        have hq : (1 : ℚ) = c := by simpa [asNumber] using hc
        subst hq
        have hcpv : cleanPropertyValue "confidence" (PropValue.boolean true) =
            some (PropValue.num (pyRound 1 4)) := by
          norm_num [cleanPropertyValue, asNumber]
        have hstep : cleanPropStep props [("Name", PropValue.str "")] "confidence" =
            dictInsert "confidence" (PropValue.num (pyRound 1 4))
              [("Name", PropValue.str "")] := by
          simp [cleanPropStep, hv, hcpv]
        rw [hstep, dictGet_insert_self]
      | false =>
        have hq : (0 : ℚ) = c := by simpa [asNumber] using hc
        subst hq
        have hcpv : cleanPropertyValue "confidence" (PropValue.boolean false) =
            some (PropValue.num (pyRound 0 4)) := by
          norm_num [cleanPropertyValue, asNumber]
        have hstep : cleanPropStep props [("Name", PropValue.str "")] "confidence" =
            dictInsert "confidence" (PropValue.num (pyRound 0 4))
              [("Name", PropValue.str "")] := by
          simp [cleanPropStep, hv, hcpv]
        rw [hstep, dictGet_insert_self]
  · intro hout
    rw [hpf, dictGet_conf_createClean, hfold]
    cases v with
    | str s => cases hc
    | nullV => cases hc
    | obj coords => cases hc
    | num q =>
      have hq : q = c := by
        simpa [asNumber] using hc
      subst hq
      have hcpv : cleanPropertyValue "confidence" (PropValue.num q) = none := by
        simp [cleanPropertyValue, asNumber, hout]
      have hstep : cleanPropStep props [("Name", PropValue.str "")] "confidence" =
          [("Name", PropValue.str "")] := by
        simp [cleanPropStep, hv, hcpv]
      rw [hstep]
      rfl
    | boolean b =>
      exfalso
      apply hout
      have hq : (if b then (1 : ℚ) else 0) = c := by
        simpa [asNumber] using hc
      cases b
      · rw [← hq]; norm_num
      · rw [← hq]; norm_num

/-- Witness for C6 (amended): an in-range confidence of 0.7 survives
(rounded), on the concrete single-property bag. -/
theorem building_confidence_witness :
    dictGet "confidence"
      (processBuildingFeature SourceType.googleBuildings
        [("confidence", PropValue.num (mkRat 7 10))]) =
      some (PropValue.num (pyRound (mkRat 7 10) 4)) :=
  (building_confidence_not_clamped [("confidence", PropValue.num (mkRat 7 10))]
    SourceType.googleBuildings (PropValue.num (mkRat 7 10)) (mkRat 7 10) rfl rfl rfl).1
    (by decide) (by decide)

/-- Counterexample to claim C6 as stated: a confidence of 1.5 does not
become 1.0 — the key is absent from the processed property bag. -/
theorem building_confidence_rejected :
    (1 : ℚ) < mkRat 3 2 ∧
    dictGet "confidence"
      (processBuildingFeature SourceType.googleBuildings
        [("confidence", PropValue.num (mkRat 3 2))]) = none := by
  constructor <;> decide

/-! ## CSV export: header completeness -/

theorem mem_keys_csvPropStep (acc : List (String × String)) (kv : String × PropValue)
    (k : String) (h : k ∈ acc.map Prod.fst) :
    k ∈ (csvPropStep acc kv).map Prod.fst := by
  unfold csvPropStep
  split
  · exact h
  · exact mem_keys_insert_of_mem _ _ _ _ h

theorem mem_keys_foldl_csvPropStep (props : List (String × PropValue))
    (acc : List (String × String)) (k : String) (h : k ∈ acc.map Prod.fst) :
    k ∈ (props.foldl csvPropStep acc).map Prod.fst := by
  induction props generalizing acc with
  | nil => exact h
  | cons kv t ih => exact ih _ (mem_keys_csvPropStep acc kv k h)

theorem mem_keys_foldl_of_mem (props : List (String × PropValue))
    (acc : List (String × String)) (kv : String × PropValue)
    (hkv : kv ∈ props) (hd : strLower kv.1 ≠ "description") :
    cleanKey kv.1 ∈ (props.foldl csvPropStep acc).map Prod.fst := by
  induction props generalizing acc with
  | nil => cases hkv
  | cons p t ih =>
    rcases List.mem_cons.mp hkv with h | h
    · subst h
      simp only [List.foldl_cons]
      apply mem_keys_foldl_csvPropStep
      unfold csvPropStep
      have hbeq : (strLower kv.1 == "description") = false := by
        exact beq_eq_false_iff_ne.mpr hd
      rw [hbeq]
      simp only [Bool.false_eq_true, if_false]
      exact mem_keys_insert_self _ _ _
    · simp only [List.foldl_cons]
      exact ih _ h

theorem mem_keys_featureData (sv stv : String) (f : CsvFeature) (kv : String × PropValue)
    (hkv : kv ∈ f.props) (hd : strLower kv.1 ≠ "description") :
    cleanKey kv.1 ∈ (featureData sv stv f).map Prod.fst := by
  unfold featureData
  exact mem_keys_foldl_of_mem f.props _ kv hkv hd

theorem mem_foldl_csvRowStep_of_mem (results : List CsvSourceResult)
    (acc : List (List (String × String))) (row : List (String × String))
    (h : row ∈ acc) : row ∈ results.foldl csvRowStep acc := by
  induction results generalizing acc with
  | nil => exact h
  | cons r t ih =>
    simp only [List.foldl_cons]
    apply ih
    unfold csvRowStep
    split
    · exact h
    · exact List.mem_append_left _ h

theorem mem_foldl_csvRowStep (results : List CsvSourceResult)
    (acc : List (List (String × String))) (r : CsvSourceResult) (f : CsvFeature)
    (hr : r ∈ results) (hf : f ∈ r.features) :
    featureData r.source.value r.status.value f ∈ results.foldl csvRowStep acc := by
  induction results generalizing acc with
  | nil => cases hr
  | cons q t ih =>
    rcases List.mem_cons.mp hr with h | h
    · subst h
      simp only [List.foldl_cons]
      apply mem_foldl_csvRowStep_of_mem
      unfold csvRowStep
      have hfe : r.features.isEmpty = false := by
        cases hfz : r.features
        · rw [hfz] at hf; cases hf
        · rfl
      rw [hfe]
      simp only [Bool.false_eq_true, if_false]
      exact List.mem_append_right _ (List.mem_map_of_mem _ hf)
    · simp only [List.foldl_cons]
      exact ih _ h

theorem mem_collectCsvRows (results : List CsvSourceResult) (r : CsvSourceResult)
    (f : CsvFeature) (hr : r ∈ results) (hf : f ∈ r.features) :
    featureData r.source.value r.status.value f ∈ collectCsvRows results := by
  unfold collectCsvRows
  exact mem_foldl_csvRowStep results [] r f hr hf

theorem mem_keyStep_preserve (a : List String) (kv : String × String) (k : String)
    (h : k ∈ a) : k ∈ keyStep a kv := by
  by_cases hc : kv.1 ∈ a
  · simpa [keyStep, hc]
  · simp only [keyStep, if_neg hc]
    exact List.mem_append_left _ h

theorem mem_keyStep_self (a : List String) (kv : String × String) : kv.1 ∈ keyStep a kv := by
  by_cases hc : kv.1 ∈ a
  · simp [keyStep, hc]
  · simp only [keyStep, if_neg hc]
    exact List.mem_append_right _ (List.mem_singleton.mpr rfl)

theorem mem_foldl_keyStep_preserve (row : List (String × String)) (a : List String)
    (k : String) (h : k ∈ a) : k ∈ row.foldl keyStep a := by
  induction row generalizing a with
  | nil => exact h
  | cons kv t ih => exact ih _ (mem_keyStep_preserve a kv k h)

theorem mem_foldl_keyStep (row : List (String × String)) (a : List String)
    (kv : String × String) (hkv : kv ∈ row) : kv.1 ∈ row.foldl keyStep a := by
  induction row generalizing a with
  | nil => cases hkv
  | cons p t ih =>
    rcases List.mem_cons.mp hkv with h | h
    · subst h
      simp only [List.foldl_cons]
      exact mem_foldl_keyStep_preserve t _ kv.1 (mem_keyStep_self a kv)
    · simp only [List.foldl_cons]
      exact ih _ h

theorem mem_foldl_rowKeysStep_preserve (rows : List (List (String × String)))
    (a : List String) (k : String) (h : k ∈ a) : k ∈ rows.foldl rowKeysStep a := by
  induction rows generalizing a with
  | nil => exact h
  | cons row t ih => exact ih _ (mem_foldl_keyStep_preserve row a k h)

theorem mem_foldl_rowKeysStep (rows : List (List (String × String))) (a : List String)
    (row : List (String × String)) (kv : String × String)
    (hrow : row ∈ rows) (hkv : kv ∈ row) : kv.1 ∈ rows.foldl rowKeysStep a := by
  induction rows generalizing a with
  | nil => cases hrow
  | cons q t ih =>
    rcases List.mem_cons.mp hrow with h | h
    · subst h
      simp only [List.foldl_cons]
      exact mem_foldl_rowKeysStep_preserve t _ kv.1 (mem_foldl_keyStep row a kv hkv)
    · simp only [List.foldl_cons]
      exact ih _ h

theorem mem_unionKeys (rows : List (List (String × String)))
    (row : List (String × String)) (kv : String × String)
    (hrow : row ∈ rows) (hkv : kv ∈ row) : kv.1 ∈ unionKeys rows := by
  unfold unionKeys
  exact mem_foldl_rowKeysStep rows [] row kv hrow hkv

theorem mem_insertSorted (x : String) (l : List String) (a : String) :
    a ∈ insertSorted x l ↔ a = x ∨ a ∈ l := by
  induction l with
  | nil => simp [insertSorted]
  | cons y t ih =>
    unfold insertSorted
    by_cases h : charsLe x.data y.data = true
    · simp [h]
    · simp [h, ih]
      tauto

theorem mem_sortStrings (l : List String) (a : String) : a ∈ sortStrings l ↔ a ∈ l := by
  induction l with
  | nil => simp [sortStrings]
  | cons x t ih => simp [sortStrings, mem_insertSorted, ih]

theorem mem_csvHeader (cols : List String) (k : String) (h : k ∈ cols) :
    k ∈ csvHeader cols := by
  unfold csvHeader
  by_cases hs : strStarts "atlas_".data k.data = true
  · exact List.mem_append_left _ (List.mem_filter.mpr ⟨h, hs⟩)
  · refine List.mem_append_right _ ?_
    rw [mem_sortStrings]
    refine List.mem_filter.mpr ⟨h, ?_⟩
    simp [hs]

theorem foldl_csvRowStep_all_empty (results : List CsvSourceResult)
    (acc : List (List (String × String))) (h : ∀ r ∈ results, r.features = []) :
    results.foldl csvRowStep acc = acc := by
  induction results generalizing acc with
  | nil => rfl
  | cons r t ih =>
    simp only [List.foldl_cons]
    have hstep : csvRowStep acc r = acc := by
      unfold csvRowStep
      simp [h r (List.mem_cons_self _ _)]
    rw [hstep]
    exact ih _ (fun x hx => h x (List.mem_cons_of_mem _ hx))

/-- Claim C7 (amended): every property key other than a
case-insensitive `description`, after replacing spaces and hyphens with
underscores, appears as a column name in the CSV header; and an
aggregate with zero features still produces exactly two rows — the
fixed header row plus the single "No features found" placeholder row. -/
theorem csv_header_columns (results : List CsvSourceResult) :
    (∀ r ∈ results, ∀ f ∈ r.features, ∀ kv ∈ f.props,
      strLower kv.1 ≠ "description" →
      cleanKey kv.1 ∈ (csvExport results).header) ∧
    ((∀ r ∈ results, r.features = []) →
      (csvExport results).header = ["atlas_source", "atlas_source_status", "message"] ∧
      (csvExport results).rows = [["N/A", "N/A", "No features found"]]) := by
  constructor
  · intro r hr f hf kv hkv hd
    have hrow := mem_collectCsvRows results r f hr hf
    have hne : (collectCsvRows results).isEmpty = false := by
      cases hc : collectCsvRows results
      · rw [hc] at hrow
        cases hrow
      · rfl
    have hkey : cleanKey kv.1 ∈ (featureData r.source.value r.status.value f).map Prod.fst :=
      mem_keys_featureData _ _ f kv hkv hd
    have hkmem : cleanKey kv.1 ∈ unionKeys (collectCsvRows results) := by
      obtain ⟨p, hp, hpk⟩ := List.mem_map.mp hkey
      exact hpk ▸ mem_unionKeys _ _ p hrow hp
    unfold csvExport
    simp only [hne, Bool.false_eq_true, if_false]
    exact mem_csvHeader _ _ hkmem
  · intro hall
    have hnil : collectCsvRows results = [] := by
      unfold collectCsvRows
      exact foldl_csvRowStep_all_empty results [] hall
    unfold csvExport
    rw [hnil]
    exact ⟨rfl, rfl⟩

/-- Witness for C7 (amended): a key containing a space appears
underscore-cleaned in the header, and the empty export has the fixed
two-row shape. -/
theorem csv_header_columns_witness :
    cleanKey "my key" ∈ (csvExport spacedResults).header ∧
    (csvExport ([] : List CsvSourceResult)).rows = [["N/A", "N/A", "No features found"]] :=
  ⟨(csv_header_columns spacedResults).1
      ⟨SourceType.osmLandmarks, ProcessingStatus.completed, [spacedFeature]⟩ (by decide)
      spacedFeature (by decide) ("my key", PropValue.str "v") (by decide) (by decide),
   ((csv_header_columns []).2 (by simp)).2⟩

/-- Counterexample to claim C7 as stated: a feature's `description`
property key never appears as a CSV column. -/
theorem csv_description_excluded :
    ("description", PropValue.str "verbose text") ∈ descFeature.props ∧
    "description" ∉ (csvExport descResults).header := by
  constructor <;> decide

end Atlas
